import Mathlib

/-!
Shallow embedding of the gwf-manager core (Manager, cache_task, scratch
wrappers, flatten) and proofs about the properties its specification states.

Modelling conventions:
* Python `Path` values are represented by their string form; `Path(s)` is the
  identity on these strings.
* Python dicts are insertion-ordered association lists; `d[k] = v` replaces the
  value in place when the key is present and appends otherwise.
* `AnonymousTarget` instances (from the external gwf engine) carry no custom
  equality, so Python sets of them compare by object identity; the model gives
  every instance a numeric identity `tid` and set membership compares `tid`.
* SHA-256 is modelled as an injective function of its input byte stream: the
  model digest is the stream itself (as the list of characters fed to
  `update`), which preserves exactly the equalities and inequalities the
  specification reasons about.
-/

namespace GwfManager

/-- Nested path-like value as handled by `flatten`: a Python dict, a
list/tuple, or a scalar (path or string). -/
inductive PVal where
  | str : String → PVal
  | list : List PVal → PVal
  | dict : List (String × PVal) → PVal

mutual
/-- Embedding of `utilities.flatten`: collect every leaf value of a nested
dict/list/scalar structure, in traversal order. -/
def flatten : PVal → List String
  | .str s => [s]
  | .list xs => flattenList xs
  | .dict kvs => flattenDict kvs

def flattenList : List PVal → List String
  | [] => []
  | x :: xs => flatten x ++ flattenList xs

def flattenDict : List (String × PVal) → List String
  | [] => []
  | kv :: kvs => flatten kv.2 ++ flattenDict kvs
end

/-- Embedding of `utilities.legalize_for_gwf`: `name.replace("-", "_")`,
written per character since the pattern is a single character. -/
def legalize_for_gwf (name : String) : String :=
  String.mk (name.data.map (fun c => if c == '-' then '_' else c))

/-- Prefix test on character lists (Python `str.startswith`). -/
def startsWithChars : List Char → List Char → Bool
  | [], _ => true
  | _ :: _, [] => false
  | a :: as, b :: bs => a == b && startsWithChars as bs

/-- Embedding of Python `s.startswith(pre)`. -/
def pyStartswith (s pre : String) : Bool :=
  startsWithChars pre.data s.data

/-- Lexicographic order on character lists, by code point (Python string
order). -/
def charListLe : List Char → List Char → Bool
  | [], _ => true
  | _ :: _, [] => false
  | x :: xs, y :: ys => if x == y then charListLe xs ys else decide (x.toNat < y.toNat)

/-- Python string comparison `a <= b`. -/
def strLe (a b : String) : Bool :=
  charListLe a.data b.data

/-- Dict write `d[k] = v`: replace in place when present, append otherwise. -/
def dictSet (l : List (String × α)) (k : String) (v : α) : List (String × α) :=
  if l.any (fun p => p.1 == k) then
    l.map (fun p => if p.1 == k then (k, v) else p)
  else
    l ++ [(k, v)]

/-- Dict `old.update(new)`: apply every write of `new`, in order. -/
def dictUpdate (old new : List (String × α)) : List (String × α) :=
  new.foldl (fun acc kv => dictSet acc kv.1 kv.2) old

/-- Resource hints of a job template; opaque pass-through values. -/
structure JobOptions where
  cores : Nat
  memory : String
  walltime : String
deriving DecidableEq

/-- Embedding of gwf's `AnonymousTarget`. The field `tid` models Python object
identity: the engine class defines no custom equality, so sets of templates
compare instances by identity. -/
structure AnonymousTarget where
  tid : Nat
  inputs : PVal
  outputs : List (String × PVal)
  options : JobOptions
  spec : String

/-- Membership of a template in a Python set of templates (identity-based). -/
def memTarget (ts : List AnonymousTarget) (t : AnonymousTarget) : Bool :=
  ts.any (fun u => u.tid == t.tid)

/-- Identity-based set insertion, as performed by `set.add`. -/
def addTarget (ts : List AnonymousTarget) (t : AnonymousTarget) : List AnonymousTarget :=
  if memTarget ts t then ts else ts ++ [t]

/-- Embedding of `manager.Task`: target set, accumulated outputs, skip flag. -/
structure Task where
  targets : List AnonymousTarget
  outputs : List (String × PVal)
  should_submit : Bool

/-- Fresh `Task`, as produced by the `defaultdict(Task)` factory. -/
def Task.default : Task :=
  { targets := [], outputs := [], should_submit := true }

/-- Errors raised by the embedded code, by Python exception class. The class
`duplicateTargetError` mirrors `exceptions.DuplicateTargetError`, which the
repository defines but never raises. -/
inductive PyError where
  | assertionError (msg : String)
  | gwfManagerError (msg : String)
  | taskOutputError (msg : String)
  | duplicateTargetError (msg : String)
  | genericException (msg : String)
deriving DecidableEq

/-- Tests whether an error is of the `DuplicateTargetError` class. -/
def PyError.isDuplicateTargetErr : PyError → Bool
  | .duplicateTargetError _ => true
  | _ => false

/-- Embedding of `manager.Manager` state: the `gwf` engine handle is left out
(emission is modelled by returning the list of engine calls), `clean_up` is the
constructor flag, `targets` and `tasks` are the two insertion-ordered
registries; `tasks` behaves as a `defaultdict(Task)`. -/
structure Manager where
  clean_up : Bool
  targets : List (String × AnonymousTarget)
  tasks : List (String × Task)

/-- Access `tasks[task_id]` on the `defaultdict`: return the stored task, or
create a fresh default entry when absent. -/
def ddAccess (tasks : List (String × Task)) (id : String) :
    Task × List (String × Task) :=
  match tasks.lookup id with
  | some t => (t, tasks)
  | none => (Task.default, tasks ++ [(id, Task.default)])

/-- Effect of `self.tasks[task_id].targets.add(template)`. -/
def Manager.addToTask (m : Manager) (id : String) (t : AnonymousTarget) : Manager :=
  let ta := ddAccess m.tasks id
  { m with tasks := dictSet ta.2 id { ta.1 with targets := addTarget ta.1.targets t } }

/-- Embedding of `Manager.submit`: dedup by name, assert equal specs on
resubmission, optionally add the canonical template to a task, and return the
canonical template. -/
def Manager.submit (m : Manager) (name : String) (template : AnonymousTarget)
    (task_id : Option String) : Except PyError (Manager × AnonymousTarget) :=
  match m.targets.lookup name with
  | some existing =>
      if existing.spec = template.spec then
        let m₁ := match task_id with
          | some id => m.addToTask id existing
          | none => m
        .ok (m₁, existing)
      else
        .error (.assertionError ("Differing spec of resubmitted target " ++ name))
  | none =>
      let m₀ := { m with targets := m.targets ++ [(name, template)] }
      let m₁ := match task_id with
        | some id => m₀.addToTask id template
        | none => m₀
      .ok (m₁, template)

/-- Effect of `Manager.update_task_output`. -/
def Manager.update_task_output (m : Manager) (task_id : String)
    (paths_dict : List (String × PVal)) : Manager :=
  let ta := ddAccess m.tasks task_id
  { m with tasks := dictSet ta.2 task_id { ta.1 with outputs := dictUpdate ta.1.outputs paths_dict } }

/-- Embedding of `Manager.get_task_output`: result paired with the manager
state after the call (the `defaultdict` could in principle grow on access, so
the state is threaded explicitly). -/
def Manager.get_task_output (m : Manager) (task_id output_name : String) :
    Except PyError PVal × Manager :=
  if ¬ m.tasks.any (fun p => p.1 == task_id) then
    (.error (.genericException ("Task output " ++ task_id ++ " does not exist!")), m)
  else
    let ta := ddAccess m.tasks task_id
    let m₁ := { m with tasks := ta.2 }
    if ¬ ta.1.outputs.any (fun p => p.1 == output_name) then
      (.error (.genericException ("Output " ++ output_name ++ " does not exist for task " ++ task_id ++ "!")), m₁)
    else
      let ta₂ := ddAccess m₁.tasks task_id
      (.ok ((ta₂.1.outputs.lookup output_name).getD (.str "")), { m₁ with tasks := ta₂.2 })

mutual
/-- Embedding of `manager._cast_to_str`: rebuild the structure, turning every
leaf into its engine string form (the identity on string-modelled paths). -/
def _cast_to_str : PVal → PVal
  | .str s => .str s
  | .list xs => .list (castList xs)
  | .dict kvs => .dict (castDict kvs)

def castList : List PVal → List PVal
  | [] => []
  | x :: xs => _cast_to_str x :: castList xs

def castDict : List (String × PVal) → List (String × PVal)
  | [] => []
  | kv :: kvs => (kv.1, _cast_to_str kv.2) :: castDict kvs
end

/-- Embedding of `manager._legalize_template` (in-place cast of the instance's
inputs and outputs; the identity `tid` is untouched). -/
def _legalize_template (t : AnonymousTarget) : AnonymousTarget :=
  { t with inputs := _cast_to_str t.inputs, outputs := castDict t.outputs }

/-- Path produced by `Manager.output_file` / `Manager.output_dir` (the `mkdir`
filesystem side effect is irrelevant to the returned path). -/
def output_file_path (parts : List String) : String :=
  String.intercalate "/" ("output" :: parts)

/-- Embedding of the local `_is_task_target` helper of
`manager._create_clean_up_target`. -/
def _is_task_target (m : Manager) (t : AnonymousTarget) : Bool :=
  m.tasks.any (fun p => memTarget p.2.targets t)

/-- Embedding of `manager._create_clean_up_target`. The synthesized instance is
fresh and never inserted into any identity-based set, so its `tid` is fixed
at 0. -/
def _create_clean_up_target (m : Manager) : AnonymousTarget :=
  let free := (m.targets.map (fun p => p.2)).filter (fun t => !_is_task_target m t)
  let inputs := free.flatMap (fun t => t.outputs.map (fun kv => kv.2))
  let done_flag := output_file_path ["flags", "done.flag"]
  { tid := 0
    inputs := .list inputs
    outputs := [("done_flag", .str done_flag)]
    options := { cores := 1, memory := "1g", walltime := "01:00:00" }
    spec := "\n\n    rm -rf temp\n    rm -rf scratch\n\n    date > " ++ done_flag ++ "\n\n    " }

/-- Identities of the targets collected into `targets_should_submit`. -/
def Manager.targetsShouldSubmit (m : Manager) : List Nat :=
  (m.tasks.filter (fun p => p.2.should_submit)).flatMap (fun p => p.2.targets.map (fun t => t.tid))

/-- Identities of the targets collected into `targets_shouldnt_submit`. -/
def Manager.targetsShouldntSubmit (m : Manager) : List Nat :=
  (m.tasks.filter (fun p => !p.2.should_submit)).flatMap (fun p => p.2.targets.map (fun t => t.tid))

/-- The final skip set: `targets_shouldnt_submit -= targets_should_submit`. -/
def Manager.skipSet (m : Manager) : List Nat :=
  m.targetsShouldntSubmit.filter (fun i => !m.targetsShouldSubmit.contains i)

/-- The per-target emission loop of `Manager.execute_workflow`: every
registered target not in the skip set, in registration order, with legalized
name and template. -/
def Manager.emittedTemplates (m : Manager) : List (String × AnonymousTarget) :=
  (m.targets.filter (fun p => !m.skipSet.contains p.2.tid)).map
    (fun p => (legalize_for_gwf p.1, _legalize_template p.2))

/-- Embedding of `Manager.execute_workflow`: the full sequence of
`(name, template)` calls handed to `gwf.target_from_template`. -/
def Manager.execute_workflow (m : Manager) : List (String × AnonymousTarget) :=
  m.emittedTemplates ++
    (if m.clean_up then [("clean_up", _legalize_template (_create_clean_up_target m))] else [])

/-- A template belongs to the target set of some task with
`should_submit = true` (specification-side predicate). -/
def Manager.inSubmittingTask (m : Manager) (t : AnonymousTarget) : Bool :=
  m.tasks.any (fun p => p.2.should_submit && memTarget p.2.targets t)

/-- A template belongs to the target set of some task with
`should_submit = false` (specification-side predicate). -/
def Manager.inSkippableTask (m : Manager) (t : AnonymousTarget) : Bool :=
  m.tasks.any (fun p => !p.2.should_submit && memTarget p.2.targets t)

/-- Python whitespace, as stripped by `str.strip()`. -/
def pyWhitespace (c : Char) : Bool :=
  c == ' ' || c == '\t' || c == '\n' || c == '\r' || c == Char.ofNat 11 || c == Char.ofNat 12

/-- Embedding of `str.strip()`: drop trailing whitespace, then leading
whitespace (the two removals commute). -/
def pyStrip (s : String) : String :=
  String.mk (((s.data.reverse.dropWhile pyWhitespace).reverse).dropWhile pyWhitespace)

/-- Insertion of a string into a sorted list (helper for `sortStrings`). -/
def insertSorted (x : String) : List String → List String
  | [] => [x]
  | y :: ys => if strLe x y then x :: y :: ys else y :: insertSorted x ys

/-- Embedding of Python `sorted` on the string forms of paths. -/
def sortStrings (l : List String) : List String :=
  l.foldr insertSorted []

/-- Executable duplicate removal modelling a Python `set` built from a list
(only membership in the result is relevant; sets are unordered). -/
def dedupFirst : List String → List String
  | [] => []
  | x :: xs => x :: (dedupFirst xs).filter (fun y => !(y == x))

/-- Embedding of `sorted(set(...))` on strings. -/
def sortedDedup (l : List String) : List String :=
  sortStrings (dedupFirst l)

/-- Keyword-argument value as seen by `cache_task`: the manager reference, a
fingerprint-bearing `Sample` (carrying its `name` and `sha256` digest), or any
other value. -/
inductive KwVal where
  | managerArg
  | sample (name sha256 : String)
  | other

/-- Result of the wrapped job-producing function: `None`, a dict of outputs, or
a value of some other type (whose type name feeds the error message). -/
inductive FuncRet where
  | noneRet
  | dictRet (d : List (String × PVal))
  | badRet (tyName : String)

/-- Output dict derived from a (non-`badRet`) function result: `... or {}`. -/
def FuncRet.outputsOrEmpty : FuncRet → List (String × PVal)
  | .dictRet d => d
  | _ => []

/-- Name of the first `Sample` keyword argument, in call order (the loop over
`kwargs.values()` with `break`). -/
def firstSampleName (kwargs : List (String × KwVal)) : Option String :=
  kwargs.findSome? (fun p => match p.2 with | .sample n _ => some n | _ => none)

/-- Digests of every `Sample` keyword argument, in call order. -/
def sampleShas (kwargs : List (String × KwVal)) : List String :=
  kwargs.filterMap (fun p => match p.2 with | .sample _ h => some h | _ => none)

/-- The task id derived by `cache_task`: the function name joined with the
first `Sample` argument name, separated by an underscore. -/
def task_id_of (funcName : String) (kwargs : List (String × KwVal)) : String :=
  String.intercalate "_" (funcName :: (firstSampleName kwargs).toList)

/-- The per-task digest file used by `cache_task`. -/
def cache_sha256_file (funcName : String) (kwargs : List (String × KwVal)) : String :=
  output_file_path ["cache", task_id_of funcName kwargs ++ ".sha256"]

/-- The exact byte stream fed to the SHA-256 object by `cache_task`: the digest
of every `Sample` keyword argument in call order, followed by the flattened and
sorted leaf output paths of the function result, with no separators. -/
def computeDigestStream (shas : List String) (task_outputs : PVal) : List Char :=
  (shas.map String.data).flatten ++ ((sortStrings (flatten task_outputs)).map String.data).flatten

/-- Hex digest of the modelled hash: SHA-256 is modelled as an injective
function of its input stream, so the model digest is the stream itself. -/
def sha256_hexdigest (stream : List Char) : String :=
  String.mk stream

/-- A single-quote character as a string (for generated shell commands). -/
def sq : String :=
  String.mk [Char.ofNat 39]

/-- Embedding of `caching._create_task_cache_target`. The freshly constructed
instance receives the caller-supplied identity `tid`. -/
def _create_task_cache_target (targets : List AnonymousTarget)
    (sha256_hash : String) (sha256_file : String) (tid : Nat) : AnonymousTarget :=
  let all_target_inputs := dedupFirst (flattenList (targets.map (fun t => t.inputs)))
  let all_target_outputs := dedupFirst (flattenList (targets.map (fun t => PVal.dict t.outputs)))
  let inputs :=
    (all_target_inputs.filter (fun p => !all_target_outputs.contains p))
      ++ all_target_outputs.filter (fun p => pyStartswith p "output")
  { tid := tid
    inputs := .list (inputs.map .str)
    outputs := [("sha256_file", .str sha256_file)]
    options := { cores := 1, memory := "1g", walltime := "01:00:00" }
    spec := "echo " ++ sq ++ sha256_hash ++ sq ++ " > " ++ sha256_file }

/-- Effect of `manager.tasks[task_id].should_submit = False` (a `defaultdict`
access followed by a field write). -/
def Manager.setShouldSubmitFalse (m : Manager) (id : String) : Manager :=
  let ta := ddAccess m.tasks id
  { m with tasks := dictSet ta.2 id { ta.1 with should_submit := false } }

/-- Embedding of `caching.cache_task` applied to a wrapped function and one
call. The wrapped function is modelled as a state transformer `func` on the
manager (it receives the manager by reference) returning its Python result;
`kwargs` are the call's keyword arguments in call order, `fs` maps existing
file paths to their contents, and `freshTid` is the identity of the cache
target instance constructed by the call. The first component of the result
counts how many times the wrapped function was invoked. -/
def cache_task (funcName : String) (func : Manager → Manager × FuncRet)
    (m : Manager) (kwargs : List (String × KwVal)) (fs : List (String × String))
    (freshTid : Nat) :
    Nat × Except PyError (Manager × List (String × PVal)) :=
  if (kwargs.lookup "manager").isNone then
    (0, .error (.gwfManagerError (funcName ++ " requires manager as a keyword argument.")))
  else
    let task_id := task_id_of funcName kwargs
    let output_sha256_file := cache_sha256_file funcName kwargs
    let cached_sha256_hash : Option String := (fs.lookup output_sha256_file).map pyStrip
    let fr := func m
    let m₁ := fr.1
    match fr.2 with
    | .badRet ty =>
        (1, .error (.taskOutputError
          ("Task " ++ task_id ++ " must return a dict or None, got " ++ ty ++ ".")))
    | ret =>
      let task_outputs := ret.outputsOrEmpty
      let sha256_hash :=
        sha256_hexdigest (computeDigestStream (sampleShas kwargs) (.dict task_outputs))
      let m₂ := if cached_sha256_hash == some sha256_hash
        then m₁.setShouldSubmitFalse task_id else m₁
      let ta := ddAccess m₂.tasks task_id
      let m₃ := { m₂ with tasks := ta.2 }
      match m₃.submit ("task_" ++ task_id)
          (_create_task_cache_target ta.1.targets sha256_hash output_sha256_file freshTid)
          none with
      | .error e => (1, .error e)
      | .ok (m₄, _) =>
          let m₅ := m₄.update_task_output task_id task_outputs
          (1, .ok (m₅, task_outputs))

/-- Embedding of `os.path.isabs` for POSIX paths: `p.startswith("/")`. -/
def isabs (p : String) : Bool :=
  pyStartswith p "/"

/-- Embedding of `os.path.dirname` (POSIX): everything up to the last slash,
with trailing slashes stripped unless the result is all slashes. -/
def dirname (p : String) : String :=
  let head := (p.data.reverse.dropWhile (fun c => !(c == '/'))).reverse
  if head.isEmpty then ""
  else if head.all (fun c => c == '/') then String.mk head
  else String.mk ((head.reverse.dropWhile (fun c => c == '/')).reverse)

/-- The deduplicated, sorted `mkdir -p` commands for relative input paths. -/
def mkdir_in_cmds (flat_inputs : List String) : List String :=
  sortedDedup ((flat_inputs.filter (fun p => !isabs p)).map (fun p => "mkdir -p " ++ dirname p))

/-- The deduplicated, sorted symlink commands for relative input paths. -/
def symlink_cmds (flat_inputs : List String) : List String :=
  sortedDedup ((flat_inputs.filter (fun p => !isabs p)).map
    (fun p => "ln -s ${GWF_EXEC_WORKFLOW_ROOT}/" ++ p ++ " " ++ p))

/-- The deduplicated, sorted `mkdir -p` commands for relative output paths. -/
def mkdir_out_cmds (flat_outputs : List String) : List String :=
  sortedDedup ((flat_outputs.filter (fun p => !isabs p)).map (fun p => "mkdir -p " ++ dirname p))

/-- The deduplicated, sorted move commands for relative output paths. -/
def mv_cmds (flat_outputs : List String) : List String :=
  sortedDedup ((flat_outputs.filter (fun p => !isabs p)).map
    (fun p => "mv ${SCRATCH_DIR}/" ++ p ++ " " ++ p))

/-- Lines contributed by a joined command group: `"\n".join` of an empty group
is a single empty line. -/
def blockLines (cmds : List String) : List String :=
  if cmds.isEmpty then [""] else cmds

/-- The line sequence of the f-string in `scratch._augment_spec_with_scratch`,
before the final `strip()`. -/
def scratchSpecLines (template : AnonymousTarget) (scratch_path : String) : List String :=
  let flat_inputs := flatten template.inputs
  let flat_outputs := flatten (.dict template.outputs)
  ["", ""]
    ++ ["# Create scratch directory",
        "SCRATCH_DIR=\"" ++ scratch_path ++ "\"",
        "mkdir -p ${SCRATCH_DIR}",
        "",
        "# Change to scratch directory",
        "cd ${SCRATCH_DIR}",
        "",
        "# Create input directories in scratch and symlink inputs"]
    ++ blockLines (mkdir_in_cmds flat_inputs)
    ++ blockLines (symlink_cmds flat_inputs)
    ++ ["",
        "# Create output directories in scratch"]
    ++ blockLines (mkdir_out_cmds flat_outputs)
    ++ [""]
    ++ [pyStrip template.spec]
    ++ ["",
        "# Add sync to ensure all files are written to disk",
        "sync",
        "",
        "# Change to working directory",
        "cd ${GWF_EXEC_WORKFLOW_ROOT}",
        "",
        "# Create output directories"]
    ++ blockLines (mkdir_out_cmds flat_outputs)
    ++ ["",
        "# Move outputs from scratch to final location"]
    ++ blockLines (mv_cmds flat_outputs)
    ++ ["",
        "# Clean up scratch",
        "rm -rf ${SCRATCH_DIR}",
        "",
        "    "]

/-- Embedding of `scratch._augment_spec_with_scratch`: replace the template's
spec with the staged script (the f-string joined by newlines, then stripped). -/
def _augment_spec_with_scratch (template : AnonymousTarget) (scratch_path : String) :
    AnonymousTarget :=
  { template with
      spec := pyStrip (String.intercalate "\n" (scratchSpecLines template scratch_path)) }

/-- Embedding of `scratch.use_wd_scratch` applied to a job-producing function. -/
def use_wd_scratch (funcName : String) (func : α → AnonymousTarget) (a : α) :
    AnonymousTarget :=
  _augment_spec_with_scratch (func a) ("scratch/" ++ funcName ++ "/${SLURM_JOB_ID}")

/-- Embedding of `scratch.use_custom_scratch` applied to a job-producing
function. -/
def use_custom_scratch (scratch_path : String) (func : α → AnonymousTarget) (a : α) :
    AnonymousTarget :=
  _augment_spec_with_scratch (func a) scratch_path

/-- Greedy ordered containment: every needle occurs as a line of the haystack,
in the given order, at strictly increasing positions. -/
def containsInOrder : List String → List String → Bool
  | [], _ => true
  | _ :: _, [] => false
  | n :: ns, h :: hs => if n = h then containsInOrder ns hs else containsInOrder (n :: ns) hs

/-- Split a character list at newline characters. -/
def splitLinesChars : List Char → List (List Char)
  | [] => [[]]
  | c :: cs =>
    match splitLinesChars cs with
    | [] => [[c]]
    | h :: t => if c == '\n' then [] :: h :: t else (c :: h) :: t

/-- Observer: the lines of a string, split at newline characters. -/
def linesOf (s : String) : List String :=
  (splitLinesChars s.data).map String.mk

/-- Observer: the task stored under `id`, or a fresh default task when the id
is unknown (what a `defaultdict` read would produce). -/
def Manager.taskOf (m : Manager) (id : String) : Task :=
  (m.tasks.lookup id).getD Task.default

/-- Observer: the element list of a template's inputs when they form a Python
list (as the synthesized cleanup and cache targets always do). -/
def inputList (t : AnonymousTarget) : List PVal :=
  match t.inputs with
  | .list l => l
  | _ => []

/-- Claimed inputs of the digest-writing job, following the specification's
words: the set of the task's target outputs that are not also consumed as
inputs by targets of the same task, plus the target output paths under the
published output namespace. -/
def claimCacheTargetInputs (targets : List AnonymousTarget) : List String :=
  let all_target_inputs := dedupFirst (flattenList (targets.map (fun t => t.inputs)))
  let all_target_outputs := dedupFirst (flattenList (targets.map (fun t => PVal.dict t.outputs)))
  (all_target_outputs.filter (fun p => !all_target_inputs.contains p))
    ++ all_target_outputs.filter (fun p => pyStartswith p "output")

/-- Fixture: resource options used by the example templates. -/
def optsFx : JobOptions :=
  { cores := 1, memory := "1g", walltime := "01:00:00" }

/-- Fixture: a first registered template. -/
def jobT1 : AnonymousTarget :=
  { tid := 1, inputs := .list [.str "data/raw.txt"],
    outputs := [("o", .str "output/a.txt")], options := optsFx, spec := "run A" }

/-- Fixture: a second template instance with the same spec as `jobT1`. -/
def jobT2 : AnonymousTarget :=
  { jobT1 with tid := 2 }

/-- Fixture: a third template instance with a differing spec. -/
def jobT2bad : AnonymousTarget :=
  { jobT1 with tid := 3, spec := "run B" }

/-- Fixture: an empty manager (fresh `Manager(gwf)`). -/
def mEmpty : Manager :=
  { clean_up := true, targets := [], tasks := [] }

/-- Fixture: a manager with `jobT1` registered under the name `job`. -/
def mReg : Manager :=
  { clean_up := true, targets := [("job", jobT1)], tasks := [] }

/-- Fixture: a task target with an external input and an output under the temp
namespace. -/
def cacheTgtFx : AnonymousTarget :=
  { tid := 4, inputs := .list [.str "data/raw.txt"],
    outputs := [("o", .str "temp/x.txt")], options := optsFx, spec := "make x" }

/-- Fixture: task outputs before the one-path change. -/
def outsA : PVal :=
  .dict [("x", .str "aba"), ("y", .str "ba")]

/-- Fixture: the same task outputs with only the path under `y` changed. -/
def outsB : PVal :=
  .dict [("x", .str "aba"), ("y", .str "ab")]

/-- Fixture: a job template with relative input `a/b.txt` and relative output
`c/d.txt`, as in the scratch-staging example. -/
def tplC9 : AnonymousTarget :=
  { tid := 6, inputs := .list [.str "a/b.txt"], outputs := [("o", .str "c/d.txt")],
    options := optsFx, spec := "do_stuff" }

/-- Fixture: a job template whose input and output paths are all absolute. -/
def tplC9abs : AnonymousTarget :=
  { tid := 7, inputs := .list [.str "/abs/in.txt"], outputs := [("o", .str "/abs/out.txt")],
    options := optsFx, spec := "do_stuff" }

/-- Fixture: the command lines the scratch-staging example must contain, in
order. -/
def needlesC9 : List String :=
  ["mkdir -p ${SCRATCH_DIR}",
   "cd ${SCRATCH_DIR}",
   "mkdir -p a",
   "ln -s ${GWF_EXEC_WORKFLOW_ROOT}/a/b.txt a/b.txt",
   "mkdir -p c",
   "do_stuff",
   "sync",
   "cd ${GWF_EXEC_WORKFLOW_ROOT}",
   "mkdir -p c",
   "mv ${SCRATCH_DIR}/c/d.txt c/d.txt",
   "rm -rf ${SCRATCH_DIR}"]

/-- Fixture: a wrapped job-producing function that registers nothing and
returns one output path. -/
def wfFx : Manager → Manager × FuncRet :=
  fun s => (s, .dictRet [("bam", .str "output/a.bam")])

/-- Fixture: keyword arguments carrying the manager and one sample. -/
def kwFx : List (String × KwVal) :=
  [("manager", .managerArg), ("sample", .sample "s1" "D1")]

/-! ## Supporting lemmas -/

theorem lookup_append (l₁ l₂ : List (String × α)) (k : String) :
    (l₁ ++ l₂).lookup k = ((l₁.lookup k).orElse (fun _ => l₂.lookup k)) := by
  induction l₁ with
  | nil => simp [List.lookup]
  | cons hd tl ih =>
    simp only [List.cons_append, List.lookup]
    cases h : k == hd.1 <;> simp [h, ih, Option.orElse]

theorem lookup_eq_none_of_any_false (l : List (String × α)) (k : String)
    (h : l.any (fun p => p.1 == k) = false) : l.lookup k = none := by
  induction l with
  | nil => simp [List.lookup]
  | cons hd tl ih =>
    simp only [List.any_cons, Bool.or_eq_false_iff] at h
    have h1 : (k == hd.1) = false := by
      rcases h with ⟨h1, _⟩
      rw [beq_eq_false_iff_ne] at h1 ⊢
      exact fun hc => h1 hc.symm
    simp [List.lookup, h1, ih h.2]

theorem lookup_cons_eq (hd : String × α) (tl : List (String × α)) (k : String)
    (h : (k == hd.1) = true) : (hd :: tl).lookup k = some hd.2 := by
  simp [List.lookup, h]

theorem lookup_cons_ne (hd : String × α) (tl : List (String × α)) (k : String)
    (h : (k == hd.1) = false) : (hd :: tl).lookup k = tl.lookup k := by
  simp [List.lookup, h]

theorem lookup_map_set_self (tl : List (String × α)) (k : String) (v : α)
    (hany : tl.any (fun p => p.1 == k) = true) :
    (tl.map (fun p => if p.1 == k then (k, v) else p)).lookup k = some v := by
  induction tl with
  | nil => simp at hany
  | cons hd tl ih =>
    rw [List.map_cons]
    by_cases hh : hd.1 = k
    · rw [if_pos (beq_iff_eq.mpr hh)]
      exact lookup_cons_eq (k, v) _ k (beq_self_eq_true k)
    · have hbeq : (hd.1 == k) = false := beq_eq_false_iff_ne.mpr hh
      rw [if_neg (by simp [hbeq])]
      rw [lookup_cons_ne hd _ k (beq_eq_false_iff_ne.mpr (fun hc => hh hc.symm))]
      rw [List.any_cons, hbeq, Bool.false_or] at hany
      exact ih hany

theorem lookup_map_set_ne (tl : List (String × α)) (k k' : String) (v : α)
    (h : k' ≠ k) :
    (tl.map (fun p => if p.1 == k then (k, v) else p)).lookup k' = tl.lookup k' := by
  induction tl with
  | nil => simp
  | cons hd tl ih =>
    rw [List.map_cons]
    by_cases hh : hd.1 = k
    · rw [if_pos (beq_iff_eq.mpr hh)]
      rw [lookup_cons_ne (k, v) _ k' (beq_eq_false_iff_ne.mpr h)]
      rw [lookup_cons_ne hd tl k' (beq_eq_false_iff_ne.mpr (fun hc => h (hc.trans hh)))]
      exact ih
    · rw [if_neg (by simp [beq_eq_false_iff_ne.mpr hh])]
      cases hkh : k' == hd.1 with
      | false => rw [lookup_cons_ne hd _ k' hkh, lookup_cons_ne hd tl k' hkh]; exact ih
      | true => rw [lookup_cons_eq hd _ k' hkh, lookup_cons_eq hd tl k' hkh]

theorem lookup_isSome_of_any (l : List (String × α)) (k : String)
    (h : l.any (fun p => p.1 == k) = true) : ∃ v, l.lookup k = some v := by
  induction l with
  | nil => simp at h
  | cons hd tl ih =>
    by_cases hk : k = hd.1
    · exact ⟨hd.2, lookup_cons_eq hd tl k (beq_iff_eq.mpr hk)⟩
    · rw [List.any_cons] at h
      have hb : (hd.1 == k) = false := beq_eq_false_iff_ne.mpr (fun hc => hk hc.symm)
      rw [hb, Bool.false_or] at h
      obtain ⟨v, hv⟩ := ih h
      exact ⟨v, (lookup_cons_ne hd tl k (beq_eq_false_iff_ne.mpr hk)).trans hv⟩

theorem lookup_dictSet_self (l : List (String × α)) (k : String) (v : α) :
    (dictSet l k v).lookup k = some v := by
  unfold dictSet
  cases hany : l.any (fun p => p.1 == k) with
  | false =>
    simp only [Bool.false_eq_true, if_false]
    rw [lookup_append, lookup_eq_none_of_any_false l k hany]
    simp [List.lookup, Option.orElse]
  | true =>
    simp only [if_true]
    exact lookup_map_set_self l k v hany

theorem lookup_dictSet_ne (l : List (String × α)) (k k' : String) (v : α)
    (h : k' ≠ k) : (dictSet l k v).lookup k' = l.lookup k' := by
  unfold dictSet
  cases hany : l.any (fun p => p.1 == k) with
  | false =>
    simp only [Bool.false_eq_true, if_false]
    rw [lookup_append]
    have : List.lookup k' [(k, v)] = none := by
      simp [List.lookup, beq_eq_false_iff_ne.mpr h]
    rw [this]
    cases hl : l.lookup k' <;> simp [Option.orElse]
  | true =>
    simp only [if_true]
    exact lookup_map_set_ne l k k' v h

theorem lookup_mem {l : List (String × α)} {k : String} {v : α}
    (h : l.lookup k = some v) : (k, v) ∈ l := by
  induction l with
  | nil => simp [List.lookup] at h
  | cons hd tl ih =>
    by_cases hk : k = hd.1
    · rw [lookup_cons_eq hd tl k (beq_iff_eq.mpr hk)] at h
      have hv : v = hd.2 := (Option.some.inj h).symm
      rw [hk, hv]
      exact List.mem_cons_self _ _
    · rw [lookup_cons_ne hd tl k (beq_eq_false_iff_ne.mpr hk)] at h
      exact List.mem_cons_of_mem hd (ih h)

theorem ddAccess_fst (tasks : List (String × Task)) (id : String) :
    (ddAccess tasks id).1 = (tasks.lookup id).getD Task.default := by
  unfold ddAccess
  cases h : tasks.lookup id <;> simp

theorem ddAccess_snd_lookup_self (tasks : List (String × Task)) (id : String) :
    (ddAccess tasks id).2.lookup id = some ((ddAccess tasks id).1) := by
  unfold ddAccess
  cases h : tasks.lookup id with
  | some t => simp [h]
  | none =>
    simp only
    rw [lookup_append, h]
    simp [List.lookup, Option.orElse]

theorem ddAccess_snd_lookup_ne (tasks : List (String × Task)) (id id' : String)
    (h : id' ≠ id) : (ddAccess tasks id).2.lookup id' = tasks.lookup id' := by
  unfold ddAccess
  cases hl : tasks.lookup id with
  | some t => simp
  | none =>
    simp only
    rw [lookup_append]
    have h0 : List.lookup id' [(id, Task.default)] = none := by
      simp [List.lookup, beq_eq_false_iff_ne.mpr h]
    rw [h0]
    cases hx : tasks.lookup id' <;> simp [Option.orElse]

theorem taskOf_addToTask_self (m : Manager) (id : String) (t : AnonymousTarget) :
    (m.addToTask id t).taskOf id =
      { m.taskOf id with targets := addTarget (m.taskOf id).targets t } := by
  unfold Manager.addToTask Manager.taskOf
  simp only
  rw [lookup_dictSet_self]
  simp [ddAccess_fst]

theorem taskOf_addToTask_ne (m : Manager) (id id' : String) (t : AnonymousTarget)
    (h : id' ≠ id) : (m.addToTask id t).taskOf id' = m.taskOf id' := by
  unfold Manager.addToTask Manager.taskOf
  simp only
  rw [lookup_dictSet_ne _ _ _ _ h, ddAccess_snd_lookup_ne _ _ _ h]

theorem memTarget_addTarget_self (ts : List AnonymousTarget) (t : AnonymousTarget) :
    memTarget (addTarget ts t) t = true := by
  unfold addTarget
  cases h : memTarget ts t with
  | true => simp [h]
  | false => simp [memTarget, List.any_append]

theorem memTarget_addTarget_other (ts : List AnonymousTarget) (t u : AnonymousTarget)
    (h : u.tid ≠ t.tid) : memTarget (addTarget ts t) u = memTarget ts u := by
  unfold addTarget
  cases hm : memTarget ts t with
  | true => rfl
  | false =>
    unfold memTarget
    have hbeq : (t.tid == u.tid) = false := beq_eq_false_iff_ne.mpr (fun hc => h hc.symm)
    simp [List.any_append, hbeq]

theorem memTarget_taskOf_eq_false (m : Manager) (v : AnonymousTarget)
    (hfresh : ∀ p ∈ m.tasks, ∀ u ∈ p.2.targets, u.tid ≠ v.tid) (id : String) :
    memTarget (m.taskOf id).targets v = false := by
  unfold Manager.taskOf
  cases hl : m.tasks.lookup id with
  | none => simp [Task.default, memTarget]
  | some task =>
    simp only [Option.getD]
    rw [Bool.eq_false_iff]
    intro hc
    rw [memTarget, List.any_eq_true] at hc
    obtain ⟨u, hu, htid⟩ := hc
    exact hfresh (id, task) (lookup_mem hl) u hu (beq_iff_eq.mp htid)

theorem mem_targetsShouldSubmit (m : Manager) (i : Nat) :
    i ∈ m.targetsShouldSubmit ↔
      ∃ p ∈ m.tasks, p.2.should_submit = true ∧ ∃ t ∈ p.2.targets, t.tid = i := by
  simp [Manager.targetsShouldSubmit, List.mem_flatMap, List.mem_filter, List.mem_map]
  tauto

theorem mem_targetsShouldntSubmit (m : Manager) (i : Nat) :
    i ∈ m.targetsShouldntSubmit ↔
      ∃ p ∈ m.tasks, p.2.should_submit = false ∧ ∃ t ∈ p.2.targets, t.tid = i := by
  simp [Manager.targetsShouldntSubmit, List.mem_flatMap, List.mem_filter, List.mem_map]
  tauto

theorem inSubmittingTask_iff (m : Manager) (t : AnonymousTarget) :
    m.inSubmittingTask t = true ↔
      ∃ p ∈ m.tasks, p.2.should_submit = true ∧ ∃ u ∈ p.2.targets, u.tid = t.tid := by
  simp [Manager.inSubmittingTask, memTarget, List.any_eq_true]

theorem inSkippableTask_iff (m : Manager) (t : AnonymousTarget) :
    m.inSkippableTask t = true ↔
      ∃ p ∈ m.tasks, p.2.should_submit = false ∧ ∃ u ∈ p.2.targets, u.tid = t.tid := by
  simp [Manager.inSkippableTask, memTarget, List.any_eq_true]

theorem skipSet_contains_eq (m : Manager) (t : AnonymousTarget) :
    m.skipSet.contains t.tid = (m.inSkippableTask t && !m.inSubmittingTask t) := by
  rw [Bool.eq_iff_iff, List.elem_iff]
  constructor
  · intro h
    rw [Manager.skipSet, List.mem_filter] at h
    obtain ⟨h1, h2⟩ := h
    rw [Bool.not_eq_true', ← Bool.not_eq_true, List.elem_iff] at h2
    have hsk : m.inSkippableTask t = true :=
      (inSkippableTask_iff m t).mpr ((mem_targetsShouldntSubmit m t.tid).mp h1)
    have hsub : m.inSubmittingTask t = false := by
      by_contra hc
      rw [Bool.not_eq_false] at hc
      have hmem : t.tid ∈ m.targetsShouldSubmit :=
        (mem_targetsShouldSubmit m t.tid).mpr ((inSubmittingTask_iff m t).mp hc)
      exact h2 hmem
    simp [hsk, hsub]
  · intro h
    rw [Bool.and_eq_true, Bool.not_eq_true'] at h
    obtain ⟨hsk, hsub⟩ := h
    rw [Manager.skipSet, List.mem_filter]
    refine ⟨(mem_targetsShouldntSubmit m t.tid).mpr ((inSkippableTask_iff m t).mp hsk), ?_⟩
    rw [Bool.not_eq_true', ← Bool.not_eq_true, List.elem_iff]
    intro hc
    have h2 : m.inSubmittingTask t = true :=
      (inSubmittingTask_iff m t).mpr ((mem_targetsShouldSubmit m t.tid).mp hc)
    rw [hsub] at h2
    cases h2

/-! ## C1 -/

/-- C1: at `execute()` time the sequence of templates handed to the execution
engine by the per-target loop is exactly the registered templates, in
registration order, keeping precisely those that belong to a task with
`should_submit = true` or that belong to no task with `should_submit = false`
— i.e. excluding exactly the templates that belong only to
`should_submit = false` tasks. -/
theorem execute_emits_registered_except_skipped (m : Manager) :
    m.emittedTemplates =
      (m.targets.filter (fun p => m.inSubmittingTask p.2 || !m.inSkippableTask p.2)).map
        (fun p => (legalize_for_gwf p.1, _legalize_template p.2)) := by
  unfold Manager.emittedTemplates
  congr 1
  apply List.filter_congr
  intro p _
  rw [skipSet_contains_eq m p.2]
  cases m.inSkippableTask p.2 <;> cases m.inSubmittingTask p.2 <;> simp

/-! ## C3 and C4 -/

/-- C3: calling `submit` a second time under a registered name with a template
of equal spec returns the originally registered instance — both calls return
the identical instance — and when the two calls carry different task ids, each
of the two tasks' target sets contains that single shared instance and not the
second template. -/
theorem submit_twice_shares_first_instance
    (m : Manager) (name : String) (t₁ t₂ : AnonymousTarget) (id₁ id₂ : String)
    (hname : m.targets.lookup name = none)
    (hspec : t₂.spec = t₁.spec)
    (hid : id₁ ≠ id₂)
    (htid : t₂.tid ≠ t₁.tid)
    (hfresh : ∀ p ∈ m.tasks, ∀ u ∈ p.2.targets, u.tid ≠ t₂.tid) :
    ∃ m₁ m₂ : Manager,
      m.submit name t₁ (some id₁) = .ok (m₁, t₁) ∧
      m₁.submit name t₂ (some id₂) = .ok (m₂, t₁) ∧
      memTarget (m₂.taskOf id₁).targets t₁ = true ∧
      memTarget (m₂.taskOf id₂).targets t₁ = true ∧
      memTarget (m₂.taskOf id₁).targets t₂ = false ∧
      memTarget (m₂.taskOf id₂).targets t₂ = false := by
  refine ⟨({ m with targets := m.targets ++ [(name, t₁)] } : Manager).addToTask id₁ t₁,
    (({ m with targets := m.targets ++ [(name, t₁)] } : Manager).addToTask id₁ t₁).addToTask id₂ t₁,
    ?_, ?_, ?_, ?_, ?_, ?_⟩
  · simp [Manager.submit, hname]
  · have hlook :
        ((({ m with targets := m.targets ++ [(name, t₁)] } : Manager).addToTask id₁ t₁).targets).lookup name
          = some t₁ := by
      show (m.targets ++ [(name, t₁)]).lookup name = some t₁
      rw [lookup_append, hname]
      simp [List.lookup, Option.orElse]
    simp [Manager.submit, hlook, hspec]
  · rw [taskOf_addToTask_ne _ id₂ id₁ t₁ hid,
      taskOf_addToTask_self _ id₁ t₁]
    exact memTarget_addTarget_self _ _
  · rw [taskOf_addToTask_self _ id₂ t₁]
    exact memTarget_addTarget_self _ _
  · rw [taskOf_addToTask_ne _ id₂ id₁ t₁ hid,
      taskOf_addToTask_self _ id₁ t₁]
    show memTarget (addTarget (({ m with targets := m.targets ++ [(name, t₁)] } : Manager).taskOf id₁).targets t₁) t₂ = false
    rw [memTarget_addTarget_other _ _ _ htid]
    exact memTarget_taskOf_eq_false m t₂ hfresh id₁
  · rw [taskOf_addToTask_self _ id₂ t₁]
    show memTarget (addTarget ((({ m with targets := m.targets ++ [(name, t₁)] } : Manager).addToTask id₁ t₁).taskOf id₂).targets t₁) t₂ = false
    rw [memTarget_addTarget_other _ _ _ htid,
      taskOf_addToTask_ne _ id₁ id₂ t₁ hid.symm]
    exact memTarget_taskOf_eq_false m t₂ hfresh id₂

/-- Witness for C3 at concrete inputs: an empty manager, two template
instances with equal specs, task ids `a` and `b`. -/
theorem submit_twice_shares_first_instance_witness :
    ∃ m₁ m₂ : Manager,
      mEmpty.submit "job" jobT1 (some "a") = .ok (m₁, jobT1) ∧
      m₁.submit "job" jobT2 (some "b") = .ok (m₂, jobT1) ∧
      memTarget (m₂.taskOf "a").targets jobT1 = true ∧
      memTarget (m₂.taskOf "b").targets jobT1 = true ∧
      memTarget (m₂.taskOf "a").targets jobT2 = false ∧
      memTarget (m₂.taskOf "b").targets jobT2 = false :=
  submit_twice_shares_first_instance mEmpty "job" jobT1 jobT2 "a" "b" rfl rfl
    (by decide) (by decide) (by simp [mEmpty])

/-- C4 (code bug): resubmitting a registered name with a differing spec fails
with a bare Python `AssertionError`, which is not of the
`DuplicateTargetError` class the repository defines and documents for exactly
this case; with equal specs the call succeeds and returns the stored
instance. -/
theorem submit_differing_spec_asserts_not_duplicate_error :
    mReg.submit "job" jobT2bad none =
      .error (.assertionError "Differing spec of resubmitted target job") ∧
    PyError.isDuplicateTargetErr
      (.assertionError "Differing spec of resubmitted target job") = false ∧
    mReg.submit "job" jobT2 none = .ok (mReg, jobT1) := by
  refine ⟨?_, rfl, ?_⟩ <;> rfl

/-! ## C10 -/

/-- C10: `get_task_output` never modifies the manager state — in particular an
unknown task id raises without creating an entry in the lazily-creating task
map — and the result is the stored path when both the task id and the output
name exist, an error otherwise. -/
theorem get_task_output_is_pure (m : Manager) (task_id output_name : String) :
    (m.get_task_output task_id output_name).2 = m ∧
    (m.get_task_output task_id output_name).1 =
      (match m.tasks.lookup task_id with
       | none => .error (.genericException ("Task output " ++ task_id ++ " does not exist!"))
       | some task =>
         match task.outputs.lookup output_name with
         | none => .error (.genericException
             ("Output " ++ output_name ++ " does not exist for task " ++ task_id ++ "!"))
         | some v => .ok v) := by
  unfold Manager.get_task_output
  cases h1 : m.tasks.any (fun p => p.1 == task_id) with
  | false =>
    rw [lookup_eq_none_of_any_false m.tasks task_id h1]
    simp
  | true =>
    obtain ⟨task, htask⟩ := lookup_isSome_of_any m.tasks task_id h1
    have hdd : ddAccess m.tasks task_id = (task, m.tasks) := by
      unfold ddAccess
      rw [htask]
    rw [htask]
    simp only [h1, not_true_eq_false, if_false, hdd]
    cases h2 : task.outputs.any (fun p => p.1 == output_name) with
    | false =>
      rw [lookup_eq_none_of_any_false task.outputs output_name h2]
      simp
    | true =>
      obtain ⟨v, hv⟩ := lookup_isSome_of_any task.outputs output_name h2
      rw [hv]
      simp [hdd, hv]

/-! ## C5 -/

/-- Counterexample to C5 as stated: a manager constructed with clean-up
disabled emits no cleanup job at all from `execute()`, so `execute()` does not
always emit one. -/
theorem execute_without_cleanup_counterexample :
    ({ clean_up := false, targets := [], tasks := [] } : Manager).execute_workflow = [] := rfl

/-- C5 (amended): when the manager's clean-up flag is set (the constructor
default), `execute()` emits exactly one cleanup job, appended after the
per-target loop and hence exempt from the skip rule, and its inputs are
exactly the outputs of every registered template that belongs to the target
set of no task. -/
theorem execute_emits_one_cleanup (m : Manager) (h : m.clean_up = true) :
    m.execute_workflow =
      m.emittedTemplates ++ [("clean_up", _legalize_template (_create_clean_up_target m))] ∧
    (∀ v : PVal, v ∈ inputList (_create_clean_up_target m) ↔
      ∃ t : AnonymousTarget, (∃ name, (name, t) ∈ m.targets) ∧
        _is_task_target m t = false ∧ ∃ k, (k, v) ∈ t.outputs) := by
  constructor
  · unfold Manager.execute_workflow
    rw [h]
    simp
  · intro v
    unfold inputList _create_clean_up_target
    simp only [List.mem_flatMap, List.mem_filter, List.mem_map, Bool.not_eq_true']
    constructor
    · rintro ⟨t, ⟨⟨p, hp, rfl⟩, hft⟩, kv, hkv, rfl⟩
      exact ⟨p.2, ⟨p.1, hp⟩, hft, kv.1, hkv⟩
    · rintro ⟨t, ⟨name, hmem⟩, hft, k, hk⟩
      exact ⟨t, ⟨⟨(name, t), hmem, rfl⟩, hft⟩, (k, v), hk, rfl⟩

/-- Witness for C5 (amended) at a concrete manager with the clean-up flag
set. -/
theorem execute_emits_one_cleanup_witness :
    mReg.clean_up = true ∧
    mReg.execute_workflow =
      mReg.emittedTemplates ++ [("clean_up", _legalize_template (_create_clean_up_target mReg))] :=
  ⟨rfl, (execute_emits_one_cleanup mReg rfl).1⟩

/-! ## C6 -/

theorem flattenList_map_str (l : List String) :
    flattenList (l.map PVal.str) = l := by
  induction l with
  | nil => rfl
  | cons x xs ih => simp [flattenList, flatten, ih]

theorem contains_eq_false_iff (l : List String) (p : String) :
    l.contains p = false ↔ p ∉ l := by
  rw [← Bool.not_eq_true, List.elem_iff]

theorem mem_dedupFirst (l : List String) (p : String) :
    p ∈ dedupFirst l ↔ p ∈ l := by
  induction l with
  | nil => simp [dedupFirst]
  | cons x xs ih =>
    simp only [dedupFirst, List.mem_cons, List.mem_filter, ih, Bool.not_eq_true',
      beq_eq_false_iff_ne]
    by_cases hpx : p = x <;> tauto

/-- Counterexample to C6 as stated: for a task with one target consuming
`data/raw.txt` and producing `temp/x.txt`, the digest job's inputs are the
target's external input `data/raw.txt`, not the non-consumed output
`temp/x.txt` the claim describes. -/
theorem cache_target_inputs_counterexample :
    flatten (_create_task_cache_target [cacheTgtFx] "h" "output/cache/t.sha256" 9).inputs
      = ["data/raw.txt"] ∧
    claimCacheTargetInputs [cacheTgtFx] = ["temp/x.txt"] ∧
    ("data/raw.txt" : String) ≠ "temp/x.txt" :=
  ⟨by decide, by decide, by decide⟩

/-- C6 (amended): the inputs of the digest-writing job are the set of the
task's target input paths that are not also produced as outputs by targets of
the same task, plus the target output paths whose string form starts with
`output`; its sole output is the digest file. -/
theorem cache_target_inputs_characterization
    (targets : List AnonymousTarget) (h f : String) (tid : Nat) (p : String) :
    (p ∈ flatten (_create_task_cache_target targets h f tid).inputs ↔
      ((p ∈ flattenList (targets.map (fun t => t.inputs)) ∧
          p ∉ flattenList (targets.map (fun t => PVal.dict t.outputs)))
        ∨ (p ∈ flattenList (targets.map (fun t => PVal.dict t.outputs)) ∧
            pyStartswith p "output" = true))) ∧
    (_create_task_cache_target targets h f tid).outputs = [("sha256_file", .str f)] := by
  refine ⟨?_, rfl⟩
  show p ∈ flatten (PVal.list ((((dedupFirst (flattenList (targets.map (fun t => t.inputs)))).filter
      (fun q => !((dedupFirst (flattenList (targets.map (fun t => PVal.dict t.outputs)))).contains q)))
        ++ (dedupFirst (flattenList (targets.map (fun t => PVal.dict t.outputs)))).filter
          (fun q => pyStartswith q "output")).map PVal.str)) ↔ _
  rw [show ∀ l : List String, flatten (PVal.list (l.map PVal.str)) = l from
    fun l => flattenList_map_str l]
  simp only [List.mem_append, List.mem_filter, mem_dedupFirst, Bool.not_eq_true']
  rw [contains_eq_false_iff]
  simp [mem_dedupFirst]

/-! ## C7 -/

theorem pyStrip_append_newline (s : String) : pyStrip (s ++ "\n") = pyStrip s := by
  unfold pyStrip
  have h : (s ++ "\n").data = s.data ++ ['\n'] := rfl
  rw [h, List.reverse_append]
  simp [pyWhitespace, List.dropWhile]

/-- Counterexample to C7 as stated: the per-task digest file carries the
extension `.sha256`, not `.digest`. -/
theorem cache_digest_file_extension_counterexample :
    cache_sha256_file "align" kwFx = "output/cache/align_s1.sha256" ∧
    cache_sha256_file "align" kwFx ≠ "output/cache/align_s1.digest" := by
  constructor <;> decide

/-- C7 (amended): the persisted digest lives at
`output/cache/<task_id>.sha256`, where the task id is the wrapped function's
name joined by an underscore with the name of the first `Sample` keyword
argument in call order (the bare function name when no sample is passed), and
a trailing newline in the persisted file's content does not change the
behaviour of the cache-guarded call. -/
theorem cache_digest_file_location (funcName : String) (kwargs : List (String × KwVal)) :
    cache_sha256_file funcName kwargs =
      "output/cache/" ++ task_id_of funcName kwargs ++ ".sha256" ∧
    (∀ n, firstSampleName kwargs = some n →
      task_id_of funcName kwargs = funcName ++ "_" ++ n) ∧
    (firstSampleName kwargs = none → task_id_of funcName kwargs = funcName) ∧
    (∀ func m rest c tid,
      cache_task funcName func m kwargs
          ((cache_sha256_file funcName kwargs, c ++ "\n") :: rest) tid =
        cache_task funcName func m kwargs
          ((cache_sha256_file funcName kwargs, c) :: rest) tid) := by
  refine ⟨?_, ?_, ?_, ?_⟩
  · show "output/cache/" ++ (task_id_of funcName kwargs ++ ".sha256") =
      "output/cache/" ++ task_id_of funcName kwargs ++ ".sha256"
    rw [String.append_assoc]
  · intro n hn
    unfold task_id_of
    rw [hn]
    rfl
  · intro hn
    unfold task_id_of
    rw [hn]
    rfl
  · intro func m rest c tid
    simp only [cache_task]
    rw [lookup_cons_eq _ rest _ (beq_self_eq_true (cache_sha256_file funcName kwargs)),
      lookup_cons_eq _ rest _ (beq_self_eq_true (cache_sha256_file funcName kwargs))]
    simp [pyStrip_append_newline]

/-- Witness for C7 (amended) at concrete inputs: function name `align`, one
manager argument and one sample named `s1`. -/
theorem cache_digest_file_location_witness :
    (firstSampleName kwFx = some "s1") ∧
    task_id_of "align" kwFx = "align" ++ "_" ++ "s1" :=
  ⟨rfl, (cache_digest_file_location "align" kwFx).2.1 "s1" rfl⟩

/-! ## C8 -/

/-- Counterexample to C8 as stated: changing only the output path stored under
`y` from `ba` to `ab` leaves the digest input stream — the sorted leaf paths
concatenated without separators — unchanged (`aba ++ ba` and `ab ++ aba` are
both `ababa`), so the digest is unchanged although an output path changed. -/
theorem digest_output_collision_counterexample :
    flatten outsA = ["aba", "ba"] ∧
    flatten outsB = ["aba", "ab"] ∧
    (["aba", "ba"] : List String) ≠ ["aba", "ab"] ∧
    computeDigestStream [] outsA = computeDigestStream [] outsB :=
  ⟨by decide, by decide, by decide, by decide⟩

/-- C8 (amended): the digest is a deterministic function of the fingerprint
digests in call order and the flattened leaf output paths; changing a single
fingerprint (everything else fixed) changes the digest; changing output paths
changes the digest whenever the concatenation of the sorted leaf paths
changes — paths are hashed without separators, so a change that leaves that
concatenation intact leaves the digest intact. -/
theorem computeDigest_deterministic_and_sensitive :
    (∀ (shas : List String) (outs₁ outs₂ : PVal), flatten outs₁ = flatten outs₂ →
      computeDigestStream shas outs₁ = computeDigestStream shas outs₂) ∧
    (∀ (pre post : List String) (f g : String) (outs : PVal), f ≠ g →
      computeDigestStream (pre ++ f :: post) outs ≠
        computeDigestStream (pre ++ g :: post) outs) ∧
    (∀ (shas : List String) (outs₁ outs₂ : PVal),
      ((sortStrings (flatten outs₁)).map String.data).flatten ≠
        ((sortStrings (flatten outs₂)).map String.data).flatten →
      computeDigestStream shas outs₁ ≠ computeDigestStream shas outs₂) := by
  refine ⟨?_, ?_, ?_⟩
  · intro shas outs₁ outs₂ h
    unfold computeDigestStream
    rw [h]
  · intro pre post f g outs hfg heq
    apply hfg
    unfold computeDigestStream at heq
    rw [List.map_append, List.map_append, List.flatten_append, List.flatten_append,
      List.map_cons, List.map_cons, List.flatten_cons, List.flatten_cons] at heq
    simp only [List.append_assoc] at heq
    have h1 := List.append_cancel_left heq
    have h2 := List.append_cancel_right h1
    exact String.ext h2
  · intro shas outs₁ outs₂ hne heq
    unfold computeDigestStream at heq
    exact hne (List.append_cancel_left heq)

/-- Witness for C8 (amended), exercising fingerprint sensitivity at concrete
digests `a` and `b`. -/
theorem computeDigest_sensitive_witness :
    ("a" : String) ≠ "b" ∧
    computeDigestStream ["a"] (.dict []) ≠ computeDigestStream ["b"] (.dict []) :=
  ⟨by decide,
    computeDigest_deterministic_and_sensitive.2.1 [] [] "a" "b" (.dict []) (by decide)⟩

/-! ## C9 -/

set_option maxRecDepth 8000 in
/-- C9: for a scratch-wrapped job with relative input `a/b.txt`, relative
output `c/d.txt` and body `do_stuff`, the generated script contains, in
order: scratch-root creation, directory change into scratch, input directory
creation, a symlink command referencing `a/b.txt`, output directory creation,
the original body, a sync command, directory change back to the workflow
root, output directory re-creation, a move command referencing `c/d.txt`, and
unconditional scratch removal; and absolute input or output paths generate no
mkdir, symlink, or move commands at all. -/
theorem scratch_spec_structure :
    containsInOrder needlesC9
      (linesOf (use_wd_scratch "f" (fun _ => tplC9) ()).spec) = true ∧
    (∀ l : List String, (∀ p ∈ l, isabs p = true) →
      mkdir_in_cmds l = [] ∧ symlink_cmds l = [] ∧
      mkdir_out_cmds l = [] ∧ mv_cmds l = []) := by
  refine ⟨by decide, ?_⟩
  intro l hl
  have hfil : l.filter (fun p => !isabs p) = [] := by
    rw [List.filter_eq_nil_iff]
    intro a ha
    simp [hl a ha]
  refine ⟨?_, ?_, ?_, ?_⟩ <;>
    simp [mkdir_in_cmds, symlink_cmds, mkdir_out_cmds, mv_cmds, hfil,
      sortedDedup, dedupFirst, sortStrings]

/-- Witness for C9, exercising the absolute-path part at a concrete absolute
path. -/
theorem scratch_spec_structure_witness :
    isabs "/abs/in.txt" = true ∧
    (mkdir_in_cmds ["/abs/in.txt"] = [] ∧ symlink_cmds ["/abs/in.txt"] = [] ∧
      mkdir_out_cmds ["/abs/in.txt"] = [] ∧ mv_cmds ["/abs/in.txt"] = []) :=
  ⟨by decide, scratch_spec_structure.2 ["/abs/in.txt"] (by decide)⟩

/-! ## C2 -/

theorem any_keys_eq_false_of_not_mem (l : List (String × α)) (k : String)
    (h : k ∉ l.map Prod.fst) : l.any (fun p => p.1 == k) = false := by
  rw [Bool.eq_false_iff]
  intro hc
  rw [List.any_eq_true] at hc
  obtain ⟨p, hp, hpk⟩ := hc
  exact h (List.mem_map.mpr ⟨p, hp, beq_iff_eq.mp hpk⟩)

theorem lookup_dictUpdate (old new : List (String × α)) (k : String)
    (hnd : (new.map Prod.fst).Nodup) :
    (dictUpdate old new).lookup k =
      ((new.lookup k).orElse (fun _ => old.lookup k)) := by
  induction new generalizing old with
  | nil => simp [dictUpdate, List.lookup, Option.orElse]
  | cons kv new ih =>
    rw [List.map_cons, List.nodup_cons] at hnd
    obtain ⟨hk1, hnd'⟩ := hnd
    show (dictUpdate (dictSet old kv.1 kv.2) new).lookup k = _
    rw [ih _ hnd']
    by_cases hkk : k = kv.1
    · subst hkk
      rw [lookup_eq_none_of_any_false new kv.1 (any_keys_eq_false_of_not_mem new kv.1 hk1)]
      rw [lookup_dictSet_self, lookup_cons_eq kv new kv.1 (beq_iff_eq.mpr rfl)]
      simp [Option.orElse]
    · rw [lookup_dictSet_ne _ _ _ _ hkk, lookup_cons_ne kv new k (beq_eq_false_iff_ne.mpr hkk)]

theorem taskOf_update_task_output (m : Manager) (id : String) (d : List (String × PVal)) :
    (m.update_task_output id d).taskOf id =
      { m.taskOf id with outputs := dictUpdate (m.taskOf id).outputs d } := by
  unfold Manager.update_task_output Manager.taskOf
  simp only
  rw [lookup_dictSet_self]
  simp [ddAccess_fst]

theorem taskOf_setShouldSubmitFalse (m : Manager) (id : String) :
    (m.setShouldSubmitFalse id).taskOf id =
      { m.taskOf id with should_submit := false } := by
  unfold Manager.setShouldSubmitFalse Manager.taskOf
  simp only
  rw [lookup_dictSet_self]
  simp [ddAccess_fst]

theorem taskOf_ddAccess (m : Manager) (id : String) :
    ({ m with tasks := (ddAccess m.tasks id).2 } : Manager).taskOf id = m.taskOf id := by
  unfold Manager.taskOf
  simp only
  rw [ddAccess_snd_lookup_self, ddAccess_fst]
  cases h : m.tasks.lookup id <;> simp

theorem taskOf_congr_tasks (m m' : Manager) (h : m'.tasks = m.tasks) (id : String) :
    m'.taskOf id = m.taskOf id := by
  unfold Manager.taskOf
  rw [h]

theorem submit_none_preserves_tasks (m : Manager) (name : String) (t : AnonymousTarget)
    (m' : Manager) (r : AnonymousTarget)
    (h : m.submit name t none = .ok (m', r)) : m'.tasks = m.tasks := by
  unfold Manager.submit at h
  split at h
  · split at h
    · simp only [Except.ok.injEq, Prod.mk.injEq] at h
      rw [← h.1]
    · cases h
  · simp only [Except.ok.injEq, Prod.mk.injEq] at h
    rw [← h.1]

theorem cache_merge_chain (m₁ : Manager) (task_id name : String) (b : Bool)
    (d : List (String × PVal)) (tgt : AnonymousTarget) (m₄ : Manager) (t : AnonymousTarget)
    (heq : (({ (if b then m₁.setShouldSubmitFalse task_id else m₁) with
        tasks := (ddAccess (if b then m₁.setShouldSubmitFalse task_id else m₁).tasks task_id).2 } : Manager).submit
          name tgt none) = .ok (m₄, t))
    (hnd : (d.map Prod.fst).Nodup) (k : String) :
    ((m₄.update_task_output task_id d).taskOf task_id).outputs.lookup k =
      ((d.lookup k).orElse (fun _ => (m₁.taskOf task_id).outputs.lookup k)) := by
  have ht4 := submit_none_preserves_tasks _ _ _ _ _ heq
  have h5 := taskOf_congr_tasks _ _ ht4 task_id
  rw [taskOf_update_task_output]
  show (dictUpdate (m₄.taskOf task_id).outputs d).lookup k = _
  rw [h5, taskOf_ddAccess]
  have h7 : ((if b then m₁.setShouldSubmitFalse task_id else m₁).taskOf task_id).outputs
      = (m₁.taskOf task_id).outputs := by
    cases b with
    | true => simp [taskOf_setShouldSubmitFalse]
    | false => simp
  rw [h7, lookup_dictUpdate _ _ _ hnd]

/-- C2: a cache-guarded call that carries a manager keyword argument invokes
the wrapped function exactly once, whatever the outcome of the digest
comparison; and when the call returns normally, the function's output mapping
is returned to the caller unchanged and is merged into the task's accumulated
outputs (new keys win, other keys keep the value they had after the wrapped
function ran). -/
theorem cache_task_invokes_once_and_merges
    (funcName : String) (func : Manager → Manager × FuncRet)
    (m : Manager) (kwargs : List (String × KwVal)) (fs : List (String × String))
    (freshTid : Nat)
    (hmgr : (List.lookup "manager" kwargs).isNone = false) :
    (cache_task funcName func m kwargs fs freshTid).1 = 1 ∧
    (∀ (m' : Manager) (outs : List (String × PVal)),
      (cache_task funcName func m kwargs fs freshTid).2 = .ok (m', outs) →
      outs = (func m).2.outputsOrEmpty ∧
      ((outs.map Prod.fst).Nodup →
        ∀ k, ((m'.taskOf (task_id_of funcName kwargs)).outputs.lookup k) =
          ((outs.lookup k).orElse
            (fun _ => (((func m).1.taskOf (task_id_of funcName kwargs)).outputs.lookup k))))) := by
  constructor
  · simp only [cache_task, hmgr, Bool.false_eq_true, if_false]
    split
    · rfl
    · split
      · rfl
      · rfl
  · intro m' outs hok
    simp only [cache_task, hmgr, Bool.false_eq_true, if_false] at hok
    split at hok
    · simp at hok
    · next ret hret =>
      split at hok
      · simp at hok
      · next m₄ t heq =>
        simp only [Except.ok.injEq, Prod.mk.injEq] at hok
        obtain ⟨hm', houts⟩ := hok
        subst hm'
        subst houts
        refine ⟨rfl, ?_⟩
        intro hnd k
        exact cache_merge_chain _ _ _ _ _ _ _ _ heq hnd k

/-- Witness for C2 at concrete inputs: a call with a manager argument and one
sample invokes the wrapped function exactly once. -/
theorem cache_task_invokes_once_witness :
    (List.lookup "manager" kwFx).isNone = false ∧
    (cache_task "align" wfFx mEmpty kwFx [] 5).1 = 1 :=
  ⟨rfl, (cache_task_invokes_once_and_merges "align" wfFx mEmpty kwFx [] 5 rfl).1⟩

end GwfManager
